import Mathlib

/-!
Verification of the trace-file processing script (scripts/trace.py).

The script turns a sequence of trace records into listings, summaries and
profiles.  Pure pieces of the script (formatters, the beautifying resolver,
the node filter, the summary accumulation, the top-level error guard) are
embedded directly.  The helper modules it imports (osv.trace, osv.debug,
osv.prof) are not part of this repository snapshot; where a claim depends on
them, the missing operation is modelled from the specification and marked as
such in its doc comment.  Machine integers of the script are Python integers,
embedded as Nat (timestamps and addresses are non-negative).
-/

/-- A trace record as produced by the event source: tracepoint name
(`t.tp.name` in the script), thread id, timestamp in nanoseconds and a
backtrace given as raw addresses from innermost to outermost frame. -/
structure TraceRecord where
  tp_name : String
  thread_id : Nat
  time : Nat
  backtrace : List Nat
deriving DecidableEq

/-- A resolved source location, the record returned by a symbol resolver:
fields name, filename, line, addr, with an empty name meaning the address
could not be resolved. -/
structure SourceLocation where
  name : String
  filename : String
  line : Nat
  addr : Nat
deriving DecidableEq

/-- Python str.startswith, on the underlying character lists (the byte-level
implementation of the library test does not reduce in the kernel, the
character-list version does and agrees on these ASCII strings). -/
def strStarts (p s : String) : Bool := p.data.isPrefixOf s.data

/-- Formatting a Python string-percent-x integer: lowercase hexadecimal with
a 0x marker, as in the script's raw-address rendering. -/
def hexAddr (n : Nat) : String := "0x" ++ String.mk (Nat.toDigits 16 n)

/-- Options of the symbol-resolution argument group of the script:
--debug, --exe (empty string when absent), --no-resolve,
--show-line-number, --show-address, --show-file-name. -/
structure SymbolResolutionArgs where
  use_debug_build : Bool
  exe : String
  no_resolve : Bool
  show_line_number : Bool
  show_address : Bool
  show_file_name : Bool
deriving DecidableEq

/-- The symbol_printer class of the script: applies the resolver to an
address and the formatter to the resolved location. -/
def symbol_printer (resolver : Nat → SourceLocation) (formatter : SourceLocation → String) :
    Nat → String :=
  fun addr => formatter (resolver addr)

/-- The src_addr_formatter class of the script: an unresolved location
(empty name, Python falsy) is rendered as the bare hexadecimal address and
nothing else; otherwise the name is followed by the optional file name,
line number and address pieces selected by the options. -/
def src_addr_formatter (args : SymbolResolutionArgs) (src_addr : SourceLocation) : String :=
  if src_addr.name = "" then
    hexAddr src_addr.addr
  else
    let t0 := src_addr.name
    let t1 := if args.show_file_name then t0 ++ " " ++ src_addr.filename else t0
    let t2 := if args.show_line_number then t1 ++ ":" ++ toString src_addr.line else t1
    if args.show_address then t2 ++ " @ " ++ hexAddr src_addr.addr else t2

/-- The body of BeautifyingResolver.call on an already-resolved location:
when the name is non-empty (Python truthiness) and starts with the template
form of sched::thread::do_wait_until (or the free-standing do_wait_until),
the name is replaced by the template-free form; every other field, and the
name in every other case, is left unchanged. -/
def beautify_loc (src_addr : SourceLocation) : SourceLocation :=
  if src_addr.name ≠ "" then
    if strStarts "void sched::thread::do_wait_until<" src_addr.name then
      { src_addr with name := "sched::thread::do_wait_until" }
    else if strStarts "do_wait_until<" src_addr.name then
      { src_addr with name := "do_wait_until" }
    else src_addr
  else src_addr

/-- The BeautifyingResolver class of the script: delegates resolution and
beautifies the returned location. -/
def BeautifyingResolver (delegate : Nat → SourceLocation) : Nat → SourceLocation :=
  fun addr => beautify_loc (delegate addr)

/-- Modelled from the spec: debug.DummyResolver of the external osv.debug
module, used under --no-resolve.  Per the resolver contract an unresolved
address is returned with an empty name and the raw address. -/
def DummyResolver : Nat → SourceLocation :=
  fun addr => { name := "", filename := "", line := 0, addr := addr }

/-- The elf-path selection of symbol_resolver in the script: an explicit
--exe path wins, otherwise the debug or release loader.elf. -/
def elf_path (args : SymbolResolutionArgs) : String :=
  if args.exe ≠ "" then args.exe
  else if args.use_debug_build then "build/debug/loader.elf"
  else "build/release/loader.elf"

/-- The symbol_resolver function of the script.  debug.SymbolResolver lives
in the external osv.debug module and is taken as a parameter mapping the
chosen elf path to a resolver.  Without --no-resolve the resolver handed to
the rest of the program is the BeautifyingResolver wrapped around it. -/
def symbol_resolver (args : SymbolResolutionArgs)
    (SymbolResolver : String → Nat → SourceLocation) : Nat → SourceLocation :=
  if args.no_resolve then DummyResolver
  else BeautifyingResolver (SymbolResolver (elf_path args))

/-- The get_backtrace_formatter function of the script: with the backtrace
option off it returns the constant empty-string function; with it on it
returns the external trace.BacktraceFormatter (taken as a parameter) applied
to the symbol printer built from the resolver and the address formatter. -/
def get_backtrace_formatter (backtrace_opt : Bool)
    (BacktraceFormatter : (Nat → String) → List Nat → String)
    (args : SymbolResolutionArgs)
    (SymbolResolver : String → Nat → SourceLocation) : List Nat → String :=
  if backtrace_opt = false then fun _ => ""
  else BacktraceFormatter (symbol_printer (symbol_resolver args SymbolResolver)
    (src_addr_formatter args))

/-- Modelled from the spec: Trace.format of the external osv.trace module,
used by list_trace as t.format(backtrace_formatter).  It renders the
record's own fields (name, thread, timestamp — the rendering of those fields
is the parameter line_of) followed by the backtrace as rendered by the given
backtrace formatter; the backtrace enters the line only through that
formatter. -/
def format_record (line_of : String → Nat → Nat → String)
    (backtrace_formatter : List Nat → String) (t : TraceRecord) : String :=
  line_of t.tp_name t.thread_id t.time ++ backtrace_formatter t.backtrace

/-- The list_trace command body: one formatted line per record, each printed
with the backtrace formatter chosen by get_backtrace_formatter. -/
def list_trace (line_of : String → Nat → Nat → String) (backtrace_opt : Bool)
    (BacktraceFormatter : (Nat → String) → List Nat → String)
    (args : SymbolResolutionArgs)
    (SymbolResolver : String → Nat → SourceLocation)
    (records : List TraceRecord) : List String :=
  records.map (format_record line_of
    (get_backtrace_formatter backtrace_opt BacktraceFormatter args SymbolResolver))

/-- A profile tree node as consulted by the node filter of show_profile;
only its resident time (nanoseconds, non-negative) is read there. -/
structure ProfileNode where
  resident_time : Nat
deriving DecidableEq

/-- The node filter installed by show_profile when --min-duration is given:
a node passes when its resident time is at least the parsed threshold. -/
def node_filter (min_duration : Nat) (node : ProfileNode) : Bool :=
  decide (node.resident_time ≥ min_duration)

/-- Outcome of running the selected subcommand, as seen by the top-level
guard of the script: normal return, an IOError carrying an errno, or any
other exception. -/
inductive RunResult where
  | ok
  | ioError (e : Nat)
  | otherError
deriving DecidableEq

/-- The errno value EPIPE (broken pipe), 32 on Linux. -/
def errno_EPIPE : Nat := 32

/-- The top-level try/except of the script: an IOError is re-raised unless
its errno is EPIPE, in which case the script falls through and terminates
normally; exceptions other than IOError are not caught. -/
def run_main (r : RunResult) : RunResult :=
  match r with
  | RunResult.ioError e => if e ≠ errno_EPIPE then RunResult.ioError e else RunResult.ok
  | x => x

/-- Lexicographic at-most comparison of character lists by code point,
modelling Python string comparison used by sorted(..., key=name).  (The
library's byte-level String order does not reduce in the kernel.) -/
def strLEb : List Char → List Char → Bool
  | [], _ => true
  | _ :: _, [] => false
  | a :: as, b :: bs =>
    if a.toNat < b.toNat then true
    else if b.toNat < a.toNat then false
    else strLEb as bs

/-- Order on summary table rows: by tracepoint name, the sort key of
print_summary. -/
def rowLE (a b : String × Nat) : Prop := strLEb a.1.data b.1.data = true

instance rowLE.decRel : DecidableRel rowLE :=
  fun a b => inferInstanceAs (Decidable (strLEb a.1.data b.1.data = true))

/-- The accumulators of print_summary: record count, per-tracepoint-name
counts (in first-seen order, as the defaultdict fills), and the running
minimum and maximum timestamps, absent before the first record. -/
structure SummaryState where
  count : Nat
  counts : List (String × Nat)
  min_time : Option Nat
  max_time : Option Nat
deriving DecidableEq

/-- Per-name counter update, the count_per_tp[t.tp] += 1 of the script:
increments an existing row or appends a new one with count 1. -/
def bump : List (String × Nat) → String → List (String × Nat)
  | [], n => [(n, 1)]
  | (k, c) :: rest, n => if k = n then (k, c + 1) :: rest else (k, c) :: bump rest n

/-- One loop iteration of print_summary.  The minimum update mirrors the
script exactly: the guard is Python falsiness of min_time, so both an unset
minimum (None) and a recorded minimum of 0 cause min_time to be overwritten
with the current timestamp.  The maximum update is Python max with None
comparing below every integer. -/
def summary_step (st : SummaryState) (t : TraceRecord) : SummaryState :=
  { count := st.count + 1
    counts := bump st.counts t.tp_name
    min_time :=
      match st.min_time with
      | none => some t.time
      | some 0 => some t.time
      | some m => some (min m t.time)
    max_time :=
      match st.max_time with
      | none => some t.time
      | some m => some (max m t.time) }

/-- Sorting of the summary table rows by tracepoint name ascending, the
sorted(count_per_tp.iteritems(), key=name) of the script. -/
def sortRows (rows : List (String × Nat)) : List (String × Nat) :=
  List.insertionSort rowLE rows

/-- What the summary command emits: either the no-samples notice, or the
report consisting of the total count, the time span (max_time - min_time as
computed by the script) and the name-sorted per-tracepoint count table. -/
inductive SummaryOutput where
  | noSamples
  | report (count : Nat) (span : Nat) (rows : List (String × Nat))
deriving DecidableEq

/-- The print_summary command of the script, with the printed content
captured structurally: a single pass accumulates the state; with zero
records only "No samples" is printed; otherwise the count, the span and the
sorted count table are printed.  (Column-width computation is pure display
padding and is not modelled.) -/
def print_summary (records : List TraceRecord) : SummaryOutput :=
  let st := records.foldl summary_step { count := 0, counts := [], min_time := none, max_time := none }
  if st.count = 0 then SummaryOutput.noSamples
  else SummaryOutput.report st.count (st.max_time.getD 0 - st.min_time.getD 0) (sortRows st.counts)

/-- An interval produced by the duration matcher: the matched begin and end
records; its duration is the difference of their timestamps and its
backtrace the begin record's. -/
structure WaitInterval where
  begin_rec : TraceRecord
  end_rec : TraceRecord
deriving DecidableEq

/-- Removal of the most recently pushed pending begin record of the given
thread: LIFO matching per thread (the pending list is kept most recent
first). -/
def popThread (tid : Nat) : List TraceRecord → Option (TraceRecord × List TraceRecord)
  | [] => none
  | b :: rest =>
    if b.thread_id = tid then some (b, rest)
    else
      match popThread tid rest with
      | none => none
      | some p => some (p.1, b :: p.2)

/-- One step of the duration matcher over the pending-begins stack and the
accumulated intervals: a record named entry_name is pushed as a pending
begin; a record carrying an end name (the configured exit name — the _ret
form at the wait-profile call site — or the entry name with the _err
suffix) pops and pairs with the most recent unmatched begin of its thread,
and is discarded when that thread has none; any other record is ignored. -/
def duration_step (entry_name exit_name : String)
    (st : List TraceRecord × List WaitInterval) (r : TraceRecord) :
    List TraceRecord × List WaitInterval :=
  if r.tp_name = entry_name then (r :: st.1, st.2)
  else if r.tp_name = exit_name ∨ r.tp_name = entry_name ++ "_err" then
    match popThread r.thread_id st.1 with
    | some p => (p.2, st.2 ++ [{ begin_rec := p.1, end_rec := r }])
    | none => st
  else st

/-- Modelled from the spec: prof.get_duration_profile of the external
osv.prof module.  Per the Duration Matcher contract, begin events are the
records named entry_name and end events the records whose name is the begin
name with the _ret suffix (the explicit exit_name argument at the script's
call site is exactly that form) or with the _err suffix, on the same
thread; matching is LIFO per thread, unmatched ends are discarded, and
never-matched begins contribute nothing. -/
def get_duration_profile (traces : List TraceRecord) (entry_name exit_name : String) :
    List WaitInterval :=
  (traces.foldl (duration_step entry_name exit_name) ([], [])).2

/-- The get_wait_profile function of the script: the duration profile of
the sched_wait tracepoint with exit tracepoint sched_wait_ret. -/
def get_wait_profile (traces : List TraceRecord) : List WaitInterval :=
  get_duration_profile traces "sched_wait" "sched_wait_ret"

/-- Modelled from the spec: the symbol key of a tree node in the call-tree
builder of osv.prof — the resolved name, or the raw address formatted in
hexadecimal when resolution yielded an empty name. -/
def symbol_key (loc : SourceLocation) : String :=
  if loc.name = "" then hexAddr loc.addr else loc.name

/-- Exact-element at-most-front test of one key path against another, used
to speak about tree positions (a node's path is a key-path front of every
sample routed through it). -/
def pathFront : List String → List String → Bool
  | [], _ => true
  | _ :: _, [] => false
  | a :: as, b :: bs => if a = b then pathFront as bs else false

/-- Modelled from the spec: the callee-oriented key path of a sample's
backtrace in the call-tree builder — the backtrace walked from outermost to
innermost frame (the recorded backtrace is innermost first), each address
resolved through the given resolver and keyed by its symbol key. -/
def key_path (resolver : Nat → SourceLocation) (backtrace : List Nat) : List String :=
  backtrace.reverse.map (fun a => symbol_key (resolver a))

/-- Modelled from the spec: the resident time of the tree node at the given
path, over weighted samples (backtrace, weight) — every node on a sample's
key path accumulates the sample's weight, so a node's resident time is the
sum of the weights of the samples whose key path passes through it. -/
def tree_resident_time (resolver : Nat → SourceLocation)
    (samples : List (List Nat × Nat)) (path : List String) : Nat :=
  ((samples.filter (fun s => pathFront path (key_path resolver s.1))).map (fun s => s.2)).sum

/-- Modelled from the spec: whether the built tree has a node at the given
path — some sample's key path passes through it. -/
def tree_has_node (resolver : Nat → SourceLocation)
    (samples : List (List Nat × Nat)) (path : List String) : Bool :=
  samples.any (fun s => pathFront path (key_path resolver s.1))

/-- Delegate resolver used to exercise the beautifier on two distinct
template instantiations of the wait function. -/
def two_wait_names : Nat → SourceLocation :=
  fun a =>
    if a = 1 then { name := "void sched::thread::do_wait_until<A>", filename := "w.cc", line := 10, addr := 1 }
    else if a = 2 then { name := "void sched::thread::do_wait_until<B>", filename := "w.cc", line := 20, addr := 2 }
    else { name := "", filename := "", line := 0, addr := a }

/-- The pairing property of an interval produced by the duration matcher
for a given entry and exit tracepoint name: the begin record carries the
entry name, both records share one thread, and the end record carries the
configured exit name or the entry name with the _err suffix. -/
def matched_pair (entry_name exit_name : String) (iv : WaitInterval) : Prop :=
  iv.begin_rec.tp_name = entry_name ∧
  iv.end_rec.thread_id = iv.begin_rec.thread_id ∧
  (iv.end_rec.tp_name = exit_name ∨ iv.end_rec.tp_name = entry_name ++ "_err")

/-- Trace records of the summary scenario of the claim: tracepoints a
(three records) and b (two records) spanning timestamps 0 to 1000. -/
def summary_scenario_records : List TraceRecord :=
  [{ tp_name := "a", thread_id := 1, time := 0, backtrace := [] },
   { tp_name := "a", thread_id := 1, time := 250, backtrace := [] },
   { tp_name := "b", thread_id := 1, time := 500, backtrace := [] },
   { tp_name := "a", thread_id := 1, time := 750, backtrace := [] },
   { tp_name := "b", thread_id := 1, time := 1000, backtrace := [] }]

/-- Claim C4: for every address whose resolution yields an empty name, the
formatted symbol is exactly 0x followed by the address in hexadecimal,
regardless of the show-file-name, show-line-number and show-address options;
the formatter is a total function, so an unresolved address is absorbed
locally and never fatal. -/
theorem c4_unresolved_name_formats_as_raw_address
    (args : SymbolResolutionArgs) (src_addr : SourceLocation)
    (h : src_addr.name = "") :
    src_addr_formatter args src_addr = hexAddr src_addr.addr := by
  simp [src_addr_formatter, h]

/-- Witness for C4 at a concrete unresolved location with all display
options enabled: address 255 renders as 0xff. -/
theorem c4_unresolved_name_formats_as_raw_address_witness :
    src_addr_formatter
      { use_debug_build := false, exe := "", no_resolve := false,
        show_line_number := true, show_address := true, show_file_name := true }
      { name := "", filename := "w.cc", line := 3, addr := 255 } = "0xff" :=
  (c4_unresolved_name_formats_as_raw_address _ _ rfl).trans (by decide)

/-- Claim C5: with zero trace records the summary command emits only the
no-samples notice — no count table and no span line — and returns cleanly. -/
theorem c5_empty_input_prints_no_samples :
    print_summary [] = SummaryOutput.noSamples := rfl

/-- Claim C6: the node filter installed by show_profile for a minimum
duration threshold accepts a node exactly when its resident time is at
least the threshold, rejects exactly the nodes below it, and with
threshold 0 accepts every node, so that filtering with it is the
identity. -/
theorem c6_node_filter_threshold :
    (∀ (min_duration : Nat) (node : ProfileNode),
      (node_filter min_duration node = true ↔ min_duration ≤ node.resident_time) ∧
      (node_filter min_duration node = false ↔ node.resident_time < min_duration)) ∧
    (∀ node : ProfileNode, node_filter 0 node = true) ∧
    (∀ nodes : List ProfileNode, nodes.filter (node_filter 0) = nodes) := by
  refine ⟨fun θ node => ⟨?_, ?_⟩, fun node => ?_, fun nodes => ?_⟩
  · simp [node_filter, ge_iff_le]
  · simp [node_filter, Nat.not_le, ge_iff_le]
  · simp [node_filter]
  · exact List.filter_eq_self.mpr (fun a _ => by simp [node_filter])

/-- Claim C7: an IOError with errno EPIPE raised by the subcommand is
suppressed at top level and the script terminates normally; an IOError with
any other errno is re-raised, and a normal return passes through. -/
theorem c7_epipe_suppressed_others_reraised :
    run_main (RunResult.ioError errno_EPIPE) = RunResult.ok ∧
    (∀ e : Nat, e ≠ errno_EPIPE → run_main (RunResult.ioError e) = RunResult.ioError e) ∧
    run_main RunResult.ok = RunResult.ok := by
  refine ⟨by simp [run_main], fun e he => by simp [run_main, he], rfl⟩

/-- Witness for C7 at errno 2 (ENOENT): the error is re-raised. -/
theorem c7_epipe_suppressed_others_reraised_witness :
    run_main (RunResult.ioError 2) = RunResult.ioError 2 :=
  c7_epipe_suppressed_others_reraised.2.1 2 (by decide)

/-- Claim C9: with the backtrace option disabled, the backtrace formatter
handed to record formatting is the constant empty-string function, so the
printed line of a record does not depend on its backtrace: two records
equal in name, thread and timestamp but with different backtraces format
identically. -/
theorem c9_list_without_backtrace_ignores_backtrace :
    ∀ (line_of : String → Nat → Nat → String)
      (BacktraceFormatter : (Nat → String) → List Nat → String)
      (args : SymbolResolutionArgs)
      (SymbolResolver : String → Nat → SourceLocation)
      (r1 r2 : TraceRecord),
      r1.tp_name = r2.tp_name → r1.thread_id = r2.thread_id → r1.time = r2.time →
      (∀ bt : List Nat,
        get_backtrace_formatter false BacktraceFormatter args SymbolResolver bt = "") ∧
      format_record line_of
          (get_backtrace_formatter false BacktraceFormatter args SymbolResolver) r1 =
        format_record line_of
          (get_backtrace_formatter false BacktraceFormatter args SymbolResolver) r2 := by
  intro line_of BF args SR r1 r2 h1 h2 h3
  constructor
  · intro bt; rfl
  · simp [format_record, get_backtrace_formatter, h1, h2, h3]

/-- Witness for C9: two records differing only in their backtraces produce
the same line under the disabled-backtrace formatter. -/
theorem c9_list_without_backtrace_ignores_backtrace_witness :
    format_record (fun n _ _ => n)
        (get_backtrace_formatter false (fun _ _ => "BT")
          { use_debug_build := false, exe := "", no_resolve := true,
            show_line_number := false, show_address := false, show_file_name := false }
          (fun _ _ => { name := "", filename := "", line := 0, addr := 0 }))
        { tp_name := "x", thread_id := 1, time := 5, backtrace := [1, 2] } =
      format_record (fun n _ _ => n)
        (get_backtrace_formatter false (fun _ _ => "BT")
          { use_debug_build := false, exe := "", no_resolve := true,
            show_line_number := false, show_address := false, show_file_name := false }
          (fun _ _ => { name := "", filename := "", line := 0, addr := 0 }))
        { tp_name := "x", thread_id := 1, time := 5, backtrace := [3] } :=
  (c9_list_without_backtrace_ignores_backtrace _ _ _ _ _ _ rfl rfl rfl).2

/-- Claim C10: the beautifying resolver preserves the addr, filename and
line fields of the delegate's result always; it rewrites the name to the
template-free form exactly when the delegate's name starts with the
template form of the wait function (which forces the name non-empty); and
whenever neither template form is a front of the name — in particular when
the name is empty — the delegate's result is returned entirely unchanged. -/
theorem c10_beautifier_touches_only_matching_names
    (delegate : Nat → SourceLocation) (addr : Nat) :
    (BeautifyingResolver delegate addr).addr = (delegate addr).addr ∧
    (BeautifyingResolver delegate addr).filename = (delegate addr).filename ∧
    (BeautifyingResolver delegate addr).line = (delegate addr).line ∧
    (strStarts "void sched::thread::do_wait_until<" (delegate addr).name = true →
      (BeautifyingResolver delegate addr).name = "sched::thread::do_wait_until") ∧
    (strStarts "void sched::thread::do_wait_until<" (delegate addr).name = false →
      strStarts "do_wait_until<" (delegate addr).name = true →
      (BeautifyingResolver delegate addr).name = "do_wait_until") ∧
    (strStarts "void sched::thread::do_wait_until<" (delegate addr).name = false →
      strStarts "do_wait_until<" (delegate addr).name = false →
      BeautifyingResolver delegate addr = delegate addr) := by
  by_cases h0 : (delegate addr).name = ""
  · have e1 : strStarts "void sched::thread::do_wait_until<" (delegate addr).name = false := by
      rw [h0]; decide
    have e2 : strStarts "do_wait_until<" (delegate addr).name = false := by
      rw [h0]; decide
    simp [BeautifyingResolver, beautify_loc, h0, e1, e2]
    decide
  · by_cases h1 : strStarts "void sched::thread::do_wait_until<" (delegate addr).name
    · simp [BeautifyingResolver, beautify_loc, h0, h1]
    · by_cases h2 : strStarts "do_wait_until<" (delegate addr).name
      · simp [BeautifyingResolver, beautify_loc, h0, h1, h2]
      · simp [BeautifyingResolver, beautify_loc, h0, h1, h2]

/-- Witness for C10 at a delegate resolving to a template instantiation of
the wait function: the name is rewritten and the line field preserved. -/
theorem c10_beautifier_touches_only_matching_names_witness :
    (BeautifyingResolver
        (fun _ => { name := "void sched::thread::do_wait_until<X>",
                    filename := "w.cc", line := 9, addr := 7 }) 7).name =
      "sched::thread::do_wait_until" ∧
    (BeautifyingResolver
        (fun _ => { name := "void sched::thread::do_wait_until<X>",
                    filename := "w.cc", line := 9, addr := 7 }) 7).line = 9 :=
  ⟨(c10_beautifier_touches_only_matching_names
      (fun _ => { name := "void sched::thread::do_wait_until<X>",
                  filename := "w.cc", line := 9, addr := 7 }) 7).2.2.2.1 (by decide),
   ((c10_beautifier_touches_only_matching_names
      (fun _ => { name := "void sched::thread::do_wait_until<X>",
                  filename := "w.cc", line := 9, addr := 7 }) 7).2.2.1).trans rfl⟩

/-- Counterexample for C2: show_profile hands symbol_resolver(args) — the
beautifying resolver — to profile printing, and tree keys come from that
resolver, so the name rewrite does reach the aggregation keys: two
addresses whose delegate-resolved names are distinct template
instantiations of the wait function get the same key path and their
contributions land merged in one tree node (resident time 30, the sum of
both samples), refuting that aggregation never merges distinct resolved
names because of this rewrite. -/
theorem c2_counterexample_rewrite_merges_tree_nodes :
    (two_wait_names 1).name ≠ (two_wait_names 2).name ∧
    key_path
        (symbol_resolver
          { use_debug_build := false, exe := "", no_resolve := false,
            show_line_number := false, show_address := false, show_file_name := false }
          (fun _ => two_wait_names)) [1] =
      key_path
        (symbol_resolver
          { use_debug_build := false, exe := "", no_resolve := false,
            show_line_number := false, show_address := false, show_file_name := false }
          (fun _ => two_wait_names)) [2] ∧
    tree_resident_time
        (symbol_resolver
          { use_debug_build := false, exe := "", no_resolve := false,
            show_line_number := false, show_address := false, show_file_name := false }
          (fun _ => two_wait_names))
        [([1], 10), ([2], 20)] ["sched::thread::do_wait_until"] = 30 := by
  decide

/-- Claim C2 as amended: the name rewrite of the beautifying resolver is
applied inside the resolver that show_profile passes to tree building, so
it does affect aggregation keys — any two addresses whose delegate-resolved
names both start with the template form of the wait function receive the
identical key path, hence the identical tree node. -/
theorem c2_amended_beautified_keys_merge
    (delegate : Nat → SourceLocation) (a b : Nat)
    (ha : strStarts "void sched::thread::do_wait_until<" (delegate a).name = true)
    (hb : strStarts "void sched::thread::do_wait_until<" (delegate b).name = true) :
    key_path (BeautifyingResolver delegate) [a] = ["sched::thread::do_wait_until"] ∧
    key_path (BeautifyingResolver delegate) [b] = ["sched::thread::do_wait_until"] := by
  have key1 : ∀ x : Nat,
      strStarts "void sched::thread::do_wait_until<" (delegate x).name = true →
      symbol_key (BeautifyingResolver delegate x) = "sched::thread::do_wait_until" := by
    intro x hx
    have hne : (delegate x).name ≠ "" := by
      intro he
      rw [he] at hx
      exact absurd hx (by decide)
    simp [BeautifyingResolver, beautify_loc, hne, hx, symbol_key]
  constructor
  · simp [key_path]
    exact key1 a ha
  · simp [key_path]
    exact key1 b hb

/-- Witness for the amended C2 at the two concrete template
instantiations. -/
theorem c2_amended_beautified_keys_merge_witness :
    key_path (BeautifyingResolver two_wait_names) [1] = ["sched::thread::do_wait_until"] ∧
    key_path (BeautifyingResolver two_wait_names) [2] = ["sched::thread::do_wait_until"] :=
  c2_amended_beautified_keys_merge two_wait_names 1 2 (by decide) (by decide)

/-- Claim C3, evaluated at the failing input: on the claim's own scenario
(three a records and two b records spanning timestamps 0 to 1000) the
script's summary reports count 5 and the sorted table, but a span of 750
rather than the 1000 nanoseconds the claim (max minus min) requires —
because the minimum-timestamp guard treats a recorded minimum of 0 as
unset and overwrites it with the next record's timestamp 250. -/
theorem c3_summary_span_wrong_at_zero_timestamp :
    print_summary summary_scenario_records =
      SummaryOutput.report 5 750 [("a", 3), ("b", 2)] ∧ (750 : Nat) ≠ 1000 := by
  constructor
  · decide
  · decide

/-- A successful pop returns a pending begin of the requested thread, and
the remaining pending records all come from the original pending list. -/
theorem popThread_spec (tid : Nat) :
    ∀ (l : List TraceRecord) (b : TraceRecord) (rest : List TraceRecord),
      popThread tid l = some (b, rest) →
      b ∈ l ∧ b.thread_id = tid ∧ ∀ x ∈ rest, x ∈ l := by
  intro l
  induction l with
  | nil => intro b rest h; simp [popThread] at h
  | cons y ys ih =>
    intro b rest h
    simp only [popThread] at h
    by_cases hy : y.thread_id = tid
    · rw [if_pos hy] at h
      simp only [Option.some.injEq, Prod.mk.injEq] at h
      obtain ⟨rfl, rfl⟩ := h
      exact ⟨List.mem_cons_self y ys, hy, fun x hx => List.mem_cons_of_mem y hx⟩
    · rw [if_neg hy] at h
      cases hrec : popThread tid ys with
      | none => rw [hrec] at h; simp at h
      | some p =>
        rw [hrec] at h
        simp only [Option.some.injEq, Prod.mk.injEq] at h
        obtain ⟨rfl, rfl⟩ := h
        obtain ⟨hmem, htid, hsub⟩ := ih p.1 p.2 (by rw [hrec])
        refine ⟨List.mem_cons_of_mem y hmem, htid, ?_⟩
        intro x hx
        rcases List.mem_cons.mp hx with rfl | hx
        · exact List.mem_cons_self x ys
        · exact List.mem_cons_of_mem y (hsub x hx)

/-- Invariant of the duration-matcher fold: if every pending begin carries
the entry name and every accumulated interval is a matched pair, the same
holds of every interval accumulated by the remaining records. -/
theorem duration_fold_matched (entry_name exit_name : String) :
    ∀ (traces : List TraceRecord) (st : List TraceRecord × List WaitInterval),
      (∀ b ∈ st.1, b.tp_name = entry_name) →
      (∀ iv ∈ st.2, matched_pair entry_name exit_name iv) →
      ∀ iv ∈ (traces.foldl (duration_step entry_name exit_name) st).2,
        matched_pair entry_name exit_name iv := by
  intro traces
  induction traces with
  | nil => intro st hp ha iv hiv; exact ha iv hiv
  | cons r rest ih =>
    intro st hp ha
    rw [List.foldl_cons]
    by_cases h1 : r.tp_name = entry_name
    · have hstep : duration_step entry_name exit_name st r = (r :: st.1, st.2) := by
        simp [duration_step, h1]
      rw [hstep]
      apply ih
      · intro b hb
        rcases List.mem_cons.mp hb with rfl | hb
        · exact h1
        · exact hp b hb
      · exact ha
    · by_cases h2 : r.tp_name = exit_name ∨ r.tp_name = entry_name ++ "_err"
      · cases hpop : popThread r.thread_id st.1 with
        | none =>
          have hstep : duration_step entry_name exit_name st r = st := by
            simp [duration_step, h1, h2, hpop]
          rw [hstep]
          exact ih st hp ha
        | some p =>
          have hstep : duration_step entry_name exit_name st r =
              (p.2, st.2 ++ [{ begin_rec := p.1, end_rec := r }]) := by
            simp [duration_step, h1, h2, hpop]
          rw [hstep]
          obtain ⟨hmem, htid, hsub⟩ := popThread_spec r.thread_id st.1 p.1 p.2 (by rw [hpop])
          apply ih
          · intro b hb
            exact hp b (hsub b hb)
          · intro iv hiv
            rcases List.mem_append.mp hiv with hiv | hiv
            · exact ha iv hiv
            · rcases List.mem_singleton.mp hiv with rfl
              exact ⟨hp p.1 hmem, htid.symm, h2⟩
      · have hstep : duration_step entry_name exit_name st r = st := by
          simp [duration_step, h1, h2]
        rw [hstep]
        exact ih st hp ha

/-- Claim C1: every interval of the wait-duration profile pairs a begin
event with an end event on the same thread whose tracepoint name is the
begin event's name with the _ret or the _err suffix; and both suffixes do
terminate a sched_wait region and contribute an interval, as the two
concrete two-record traces show. -/
theorem c1_wait_profile_pairs_ret_and_err :
    (∀ traces : List TraceRecord, ∀ iv ∈ get_wait_profile traces,
      iv.end_rec.thread_id = iv.begin_rec.thread_id ∧
      (iv.end_rec.tp_name = iv.begin_rec.tp_name ++ "_ret" ∨
        iv.end_rec.tp_name = iv.begin_rec.tp_name ++ "_err")) ∧
    get_wait_profile
        [{ tp_name := "sched_wait", thread_id := 1, time := 100, backtrace := [4, 5] },
         { tp_name := "sched_wait_ret", thread_id := 1, time := 150, backtrace := [] }] =
      [{ begin_rec := { tp_name := "sched_wait", thread_id := 1, time := 100, backtrace := [4, 5] },
         end_rec := { tp_name := "sched_wait_ret", thread_id := 1, time := 150, backtrace := [] } }] ∧
    get_wait_profile
        [{ tp_name := "sched_wait", thread_id := 1, time := 100, backtrace := [4, 5] },
         { tp_name := "sched_wait_err", thread_id := 1, time := 160, backtrace := [] }] =
      [{ begin_rec := { tp_name := "sched_wait", thread_id := 1, time := 100, backtrace := [4, 5] },
         end_rec := { tp_name := "sched_wait_err", thread_id := 1, time := 160, backtrace := [] } }] := by
  refine ⟨?_, by decide, by decide⟩
  intro traces iv hiv
  have h := duration_fold_matched "sched_wait" "sched_wait_ret" traces ([], [])
    (by intro b hb; simp at hb) (by intro iv0 hiv0; simp at hiv0) iv hiv
  obtain ⟨hb, ht, he⟩ := h
  refine ⟨ht, ?_⟩
  rw [hb]
  rcases he with he | he
  · left
    rw [he]
    decide
  · right
    exact he

/-- Witness for C1: the matched-pair property read off the interval built
from the err-terminated two-record trace. -/
theorem c1_wait_profile_pairs_ret_and_err_witness :
    ({ begin_rec := { tp_name := "sched_wait", thread_id := 1, time := 100, backtrace := [4, 5] },
       end_rec := { tp_name := "sched_wait_err", thread_id := 1, time := 160, backtrace := [] } } :
        WaitInterval).end_rec.thread_id =
      ({ begin_rec := { tp_name := "sched_wait", thread_id := 1, time := 100, backtrace := [4, 5] },
         end_rec := { tp_name := "sched_wait_err", thread_id := 1, time := 160, backtrace := [] } } :
        WaitInterval).begin_rec.thread_id ∧
    (({ begin_rec := { tp_name := "sched_wait", thread_id := 1, time := 100, backtrace := [4, 5] },
        end_rec := { tp_name := "sched_wait_err", thread_id := 1, time := 160, backtrace := [] } } :
        WaitInterval).end_rec.tp_name =
      ({ begin_rec := { tp_name := "sched_wait", thread_id := 1, time := 100, backtrace := [4, 5] },
         end_rec := { tp_name := "sched_wait_err", thread_id := 1, time := 160, backtrace := [] } } :
        WaitInterval).begin_rec.tp_name ++ "_ret" ∨
     ({ begin_rec := { tp_name := "sched_wait", thread_id := 1, time := 100, backtrace := [4, 5] },
        end_rec := { tp_name := "sched_wait_err", thread_id := 1, time := 160, backtrace := [] } } :
        WaitInterval).end_rec.tp_name =
      ({ begin_rec := { tp_name := "sched_wait", thread_id := 1, time := 100, backtrace := [4, 5] },
         end_rec := { tp_name := "sched_wait_err", thread_id := 1, time := 160, backtrace := [] } } :
        WaitInterval).begin_rec.tp_name ++ "_err") :=
  c1_wait_profile_pairs_ret_and_err.1
    [{ tp_name := "sched_wait", thread_id := 1, time := 100, backtrace := [4, 5] },
     { tp_name := "sched_wait_err", thread_id := 1, time := 160, backtrace := [] }]
    { begin_rec := { tp_name := "sched_wait", thread_id := 1, time := 100, backtrace := [4, 5] },
      end_rec := { tp_name := "sched_wait_err", thread_id := 1, time := 160, backtrace := [] } }
    (by decide)

/-- Totality of the lexicographic comparison: of any two character lists,
one is at most the other. -/
theorem strLEb_total : ∀ as bs : List Char, strLEb as bs = true ∨ strLEb bs as = true := by
  intro as
  induction as with
  | nil => intro bs; left; rfl
  | cons a as ih =>
    intro bs
    cases bs with
    | nil => right; rfl
    | cons b bs =>
      simp only [strLEb]
      rcases Nat.lt_trichotomy a.toNat b.toNat with h | h | h
      · left; rw [if_pos h]
      · have hab : ¬a.toNat < b.toNat := by omega
        have hba : ¬b.toNat < a.toNat := by omega
        rw [if_neg hab, if_neg hba, if_neg hba, if_neg hab]
        exact ih bs
      · right; rw [if_pos h]

/-- Transitivity of the lexicographic comparison. -/
theorem strLEb_trans :
    ∀ as bs cs : List Char,
      strLEb as bs = true → strLEb bs cs = true → strLEb as cs = true := by
  intro as
  induction as with
  | nil => intro bs cs h1 h2; rfl
  | cons a as ih =>
    intro bs cs h1 h2
    cases bs with
    | nil => simp [strLEb] at h1
    | cons b bs =>
      cases cs with
      | nil => simp [strLEb] at h2
      | cons c cs =>
        simp only [strLEb] at h1 h2 ⊢
        by_cases hab : a.toNat < b.toNat
        · by_cases hbc : b.toNat < c.toNat
          · rw [if_pos (by omega : a.toNat < c.toNat)]
          · by_cases hcb : c.toNat < b.toNat
            · rw [if_neg hbc, if_pos hcb] at h2
              exact absurd h2 (by simp)
            · rw [if_pos (by omega : a.toNat < c.toNat)]
        · by_cases hba : b.toNat < a.toNat
          · rw [if_neg hab, if_pos hba] at h1
            exact absurd h1 (by simp)
          · rw [if_neg hab, if_neg hba] at h1
            by_cases hbc : b.toNat < c.toNat
            · rw [if_pos (by omega : a.toNat < c.toNat)]
            · by_cases hcb : c.toNat < b.toNat
              · rw [if_neg hbc, if_pos hcb] at h2
                exact absurd h2 (by simp)
              · rw [if_neg hbc, if_neg hcb] at h2
                rw [if_neg (by omega : ¬a.toNat < c.toNat),
                  if_neg (by omega : ¬c.toNat < a.toNat)]
                exact ih bs cs h1 h2

/-- Membership among the per-name counter keys after one update: the keys
are the old keys plus the updated name. -/
theorem bump_keys_mem (c : List (String × Nat)) (n m : String) :
    m ∈ (bump c n).map Prod.fst ↔ m ∈ c.map Prod.fst ∨ m = n := by
  induction c with
  | nil => simp [bump]
  | cons kv rest ih =>
    obtain ⟨k, cnt⟩ := kv
    simp only [bump]
    by_cases hk : k = n
    · subst hk
      simp
      tauto
    · rw [if_neg hk]
      simp only [List.map_cons, List.mem_cons] at *
      rw [ih]
      tauto

/-- One counter update keeps the keys free of duplicates. -/
theorem bump_keys_nodup (c : List (String × Nat)) (n : String)
    (h : (c.map Prod.fst).Nodup) : ((bump c n).map Prod.fst).Nodup := by
  induction c with
  | nil => simp [bump]
  | cons kv rest ih =>
    obtain ⟨k, cnt⟩ := kv
    simp only [bump]
    by_cases hk : k = n
    · rw [if_pos hk]
      simpa using h
    · rw [if_neg hk]
      simp only [List.map_cons, List.nodup_cons] at h ⊢
      refine ⟨?_, ih h.2⟩
      intro hmem
      rcases (bump_keys_mem rest n k).mp hmem with hm | hm
      · exact h.1 hm
      · exact hk hm

/-- The counts accumulator of the summary fold is exactly the fold of the
counter update over the tracepoint names. -/
theorem summary_counts_eq (records : List TraceRecord) :
    ∀ st : SummaryState,
      (records.foldl summary_step st).counts =
        records.foldl (fun c r => bump c r.tp_name) st.counts := by
  induction records with
  | nil => intro st; rfl
  | cons r rest ih =>
    intro st
    rw [List.foldl_cons, List.foldl_cons, ih]
    rfl

/-- A name is a key of the folded counters exactly when it is an initial
key or the tracepoint name of some record. -/
theorem fold_bump_mem (records : List TraceRecord) :
    ∀ (c : List (String × Nat)) (n : String),
      n ∈ (records.foldl (fun c r => bump c r.tp_name) c).map Prod.fst ↔
        n ∈ c.map Prod.fst ∨ n ∈ records.map TraceRecord.tp_name := by
  induction records with
  | nil => simp
  | cons r rest ih =>
    intro c n
    rw [List.foldl_cons, ih, bump_keys_mem]
    simp only [List.map_cons, List.mem_cons]
    tauto

/-- The folded counters have duplicate-free keys when started from
duplicate-free keys. -/
theorem fold_bump_nodup (records : List TraceRecord) :
    ∀ c : List (String × Nat), (c.map Prod.fst).Nodup →
      ((records.foldl (fun c r => bump c r.tp_name) c).map Prod.fst).Nodup := by
  induction records with
  | nil => intro c h; exact h
  | cons r rest ih =>
    intro c h
    rw [List.foldl_cons]
    exact ih _ (bump_keys_nodup c r.tp_name h)

/-- Claim C8: whenever the summary command prints a report, its tracepoint
statistics table is sorted ascending by name, has duplicate-free names —
one row per distinct tracepoint name — and lists exactly the names
occurring in the input records.  The report is computed by a pure function
of the records, so the ordering is identical on every run over the same
input. -/
theorem c8_summary_table_sorted_one_row_per_name
    (records : List TraceRecord) (count span : Nat) (rows : List (String × Nat))
    (h : print_summary records = SummaryOutput.report count span rows) :
    rows.Pairwise rowLE ∧ (rows.map Prod.fst).Nodup ∧
    (∀ n : String, n ∈ rows.map Prod.fst ↔ n ∈ records.map TraceRecord.tp_name) := by
  haveI htot : IsTotal (String × Nat) rowLE := ⟨fun a b => strLEb_total a.1.data b.1.data⟩
  haveI htrans : IsTrans (String × Nat) rowLE := ⟨fun a b c => strLEb_trans a.1.data b.1.data c.1.data⟩
  simp only [print_summary] at h
  split at h
  · exact absurd h (by simp)
  · simp only [SummaryOutput.report.injEq] at h
    obtain ⟨-, -, hr⟩ := h
    subst hr
    have hperm :
        List.Perm (sortRows (List.foldl summary_step
            { count := 0, counts := [], min_time := none, max_time := none } records).counts)
          (List.foldl summary_step
            { count := 0, counts := [], min_time := none, max_time := none } records).counts :=
      List.perm_insertionSort rowLE _
    refine ⟨List.sorted_insertionSort rowLE _, ?_, ?_⟩
    · have h0 : (((List.foldl summary_step
          { count := 0, counts := [], min_time := none, max_time := none } records).counts).map
            Prod.fst).Nodup := by
        rw [summary_counts_eq]
        exact fold_bump_nodup records [] (by simp)
      exact ((hperm.map Prod.fst).nodup_iff).mpr h0
    · intro n
      rw [(hperm.map Prod.fst).mem_iff, summary_counts_eq]
      simpa using fold_bump_mem records [] n

/-- Witness for C8 on two records arriving in reverse alphabetical order:
the printed rows are the alphabetically sorted, duplicate-free table. -/
theorem c8_summary_table_sorted_one_row_per_name_witness :
    ([("a", 1), ("b", 1)] : List (String × Nat)).Pairwise rowLE ∧
    (([("a", 1), ("b", 1)] : List (String × Nat)).map Prod.fst).Nodup ∧
    (∀ n : String, n ∈ ([("a", 1), ("b", 1)] : List (String × Nat)).map Prod.fst ↔
      n ∈ ([{ tp_name := "b", thread_id := 1, time := 5, backtrace := [] },
            { tp_name := "a", thread_id := 1, time := 7, backtrace := [] }] :
              List TraceRecord).map TraceRecord.tp_name) :=
  c8_summary_table_sorted_one_row_per_name
    [{ tp_name := "b", thread_id := 1, time := 5, backtrace := [] },
     { tp_name := "a", thread_id := 1, time := 7, backtrace := [] }]
    2 2 [("a", 1), ("b", 1)] (by decide)
